import Mathlib

/-!
Verification of the failover/partition core of the robotest repository
(`infra/gravity/cluster_failover.go`, `infra/gravity/node_commands.go`).

The Go code is shallowly embedded: each Go function becomes a Lean function
over explicit state.  A `Gravity` node (an interface value in Go, compared by
identity with `==`/`!=`) becomes a `Node` record; distinct Go objects map to
records with distinct `id` fields, so record equality models Go interface
identity.  The remote side effects of a node (SSH transport, iptables rule
store, etcd lookups) become explicit parameters or threaded state.
-/

namespace Robotest

/-- A cluster member (`Gravity` / `infra.Node` in Go): identified by a private
address used for cluster-internal traffic and a public address used by the
test harness.  `id` models Go interface identity (pointer equality). -/
structure Node where
  id : Nat
  privateAddr : String
  publicAddr : String
deriving DecidableEq, Repr

/-- `Application` of node_commands.go: the cluster application name. -/
structure Application where
  name : String
deriving DecidableEq, Repr

/-- `Token` of node_commands.go: the cluster join token. -/
structure Token where
  token : String
deriving DecidableEq, Repr

/-- `NodeStatus` of node_commands.go: advertised address of a cluster node. -/
structure NodeStatus where
  addr : String
deriving DecidableEq, Repr

/-- `ClusterStatus` of node_commands.go. -/
structure ClusterStatus where
  application : Application
  cluster : String
  status : String
  token : Token
  nodes : List NodeStatus
deriving DecidableEq, Repr

/-- `GravityStatus` of node_commands.go. -/
structure GravityStatus where
  cluster : ClusterStatus
deriving DecidableEq, Repr

/-- `StatusActive` constant of node_commands.go. -/
def StatusActive : String := "active"

/-- `StatusDegraded` constant of node_commands.go. -/
def StatusDegraded : String := "degraded"

/-- Errors produced through the `trace` package by the embedded functions. -/
inductive CmdError where
  /-- A command was attempted against a node whose SSH client is nil
  (deliberately powered off). -/
  | offlineNode (msg : String)
  /-- `trace.AccessDenied`, e.g. from `CollectLogs` on an offline node. -/
  | accessDenied (msg : String)
  /-- A transport-level failure of the remote execution channel. -/
  | transport (msg : String)
deriving DecidableEq, Repr

/-- Message carried by a `CmdError` (as formatted by `%v` in Go). -/
def CmdError.msg : CmdError → String
  | .offlineNode m => m
  | .accessDenied m => m
  | .transport m => m

/-! ## getPartitions (cluster_failover.go:156-167) -/

/-- Helper for the loop of `getPartitions`: finds the first occurrence of
`leader` in the list and returns the elements before it and the elements
after it (`cluster[:i]` and `cluster[i+1:]`), or `none` when the leader is
not an element.  The Go loop compares `node == leader` on interface values,
modelled by decidable equality of `Node` records. -/
def splitAtLeader : List Node → Node → Option (List Node × List Node)
  | [], _ => none
  | n :: rest, leader =>
    if n = leader then some ([], rest)
    else
      match splitAtLeader rest leader with
      | none => none
      | some (pre, post) => some (n :: pre, post)

/-- Result of `getPartitions`.  `part0`/`part1` are `partitions[0]` and
`partitions[1]`; `callerView` is what the caller's `cluster` slice reads
after the call, which matters because the Go implementation computes
`partitions[1] = append(cluster[:i], cluster[i+1:]...)`: the capacity of
`cluster[:i]` suffices, so `append` copies `cluster[i+1:]` into the backing
array shared with the caller's slice.  The caller's length-`n` slice is
physically mutated: it afterwards reads the remainder followed by a
duplicate of the original last element. -/
structure GoPartitions where
  part0 : List Node
  part1 : List Node
  callerView : List Node
deriving DecidableEq, Repr

/-- Shallow embedding of `getPartitions` (cluster_failover.go:156-167),
including the Go slice semantics of `append(cluster[:i], cluster[i+1:]...)`
described on `GoPartitions`.  When the leader is not in the list the loop
never breaks: `partitions[1]` stays nil and the caller's slice is untouched. -/
def getPartitions (cluster : List Node) (leader : Node) : GoPartitions :=
  match splitAtLeader cluster leader with
  | none => ⟨[leader], [], cluster⟩
  | some (pre, post) => ⟨[leader], pre ++ post, (pre ++ post) ++ cluster.getLast?.toList⟩

/-! ## iptables model and PartitionNetwork / UnpartitionNetwork
(node_commands.go:641-695) -/

/-- Which address field an iptables rule matches on: `-s` (source) or
`-d` (destination). -/
inductive MatchField where
  | src
  | dst
deriving DecidableEq, Repr

/-- One `-j DROP` rule: the chain it sits in is determined by which list of
`Firewall` holds it; the rule matches packets whose `field` address equals
`addr`. -/
structure FwRule where
  field : MatchField
  addr : String
deriving DecidableEq, Repr

/-- The iptables rule store of one node: the INPUT chain (traversed by
packets delivered to the node) and the OUTPUT chain (traversed by packets
the node sends). -/
structure Firewall where
  input : List FwRule
  output : List FwRule
deriving DecidableEq, Repr

/-- A packet, for interpreting drop rules: source and destination address. -/
structure Packet where
  src : String
  dst : String
deriving DecidableEq, Repr

/-- iptables matching: `-s a` matches packets with source `a`, `-d a`
matches packets with destination `a`. -/
def ruleMatches (r : FwRule) (p : Packet) : Bool :=
  match r.field with
  | .src => r.addr == p.src
  | .dst => r.addr == p.dst

/-- A chain drops a packet iff some rule in it matches (all rules here are
`-j DROP`). -/
def dropsPacket (chain : List FwRule) (p : Packet) : Bool :=
  chain.any fun r => ruleMatches r p

/-- Shallow embedding of `PartitionNetwork` (node_commands.go:641-661).
For every `node != g` in `cluster` the Go code runs, on `g`:
`sudo iptables -I INPUT -s <peer> -j DROP` and
`sudo iptables -I OUTPUT -s <peer> -j DROP` — note both use `-s`.
`-I` inserts the rule at the head of the chain.  Transport is error-free
here (`sshutils.Run` succeeding), matching the normal-execution setting of
the claims. -/
def partitionNetwork (g : Node) : List Node → Firewall → Firewall
  | [], fw => fw
  | n :: rest, fw =>
    if n = g then partitionNetwork g rest fw
    else
      partitionNetwork g rest
        { input := ⟨.src, n.privateAddr⟩ :: fw.input,
          output := ⟨.src, n.privateAddr⟩ :: fw.output }

/-- `iptables -D CHAIN <rule>`: deletes the first rule of the chain equal to
the given specification; fails (Bad rule) when no rule matches. -/
def deleteRule (chain : List FwRule) (r : FwRule) : Option (List FwRule) :=
  if r ∈ chain then some (chain.erase r) else none

/-- Shallow embedding of `UnpartitionNetwork` (node_commands.go:663-695).
For every `node != g` in `cluster` the Go code runs, on `g`:
`sudo iptables -S` (listing only, no rule-state effect), then
`sudo iptables -D INPUT -s <peer> -j DROP`, then
`sudo iptables -D OUTPUT -s <peer> -j DROP`, failing fast (with the failed
command, as `trace.Wrap(err, cmd)`) when a deletion finds no matching rule. -/
def unpartitionNetwork (g : Node) : List Node → Firewall → Except String Firewall
  | [], fw => .ok fw
  | n :: rest, fw =>
    if n = g then unpartitionNetwork g rest fw
    else
      match deleteRule fw.input ⟨.src, n.privateAddr⟩ with
      | none => .error ("sudo iptables -D INPUT -s " ++ n.privateAddr ++ " -j DROP")
      | some input' =>
        match deleteRule fw.output ⟨.src, n.privateAddr⟩ with
        | none => .error ("sudo iptables -D OUTPUT -s " ++ n.privateAddr ++ " -j DROP")
        | some output' => unpartitionNetwork g rest ⟨input', output'⟩

/-- The drop rules `PartitionNetwork` installs per chain, in cluster order:
one `-s <peer>` rule for every cluster member other than `g`. -/
def peerRules (g : Node) : List Node → List FwRule
  | [] => []
  | n :: rest =>
    if n = g then peerRules g rest
    else ⟨.src, n.privateAddr⟩ :: peerRules g rest

/-- Sample nodes used by concrete witnesses and counterexamples. -/
def nA : Node := ⟨0, "10.1.1.1", "172.28.1.1"⟩

/-- Second sample node. -/
def nB : Node := ⟨1, "10.1.1.2", "172.28.1.2"⟩

/-- Third sample node. -/
def nC : Node := ⟨2, "10.1.1.3", "172.28.1.3"⟩

/-! ## getLeaderNode (cluster_failover.go:138-154) -/

/-- Errors of `getLeaderNode`: `trace.NotFound("unable to get leader node")`
and `trace.BadParameter("multiple leader nodes [%v, %v]")` carrying the two
offending nodes. -/
inductive LeaderError where
  | notFound
  | multipleLeaders (first second : Node)
deriving DecidableEq, Repr

/-- The loop of `getLeaderNode`: `acc` is the `leader` accumulator variable
(nil at entry).  On a second claimant the Go code returns
`trace.BadParameter` immediately; after the loop, a nil accumulator yields
`trace.NotFound`.  `isL` is the environment: what `node.IsLeader(ctx)`
returns for each node. -/
def getLeaderLoop (isL : Node → Bool) : List Node → Option Node → Except LeaderError Node
  | [], none => .error .notFound
  | [], some l => .ok l
  | n :: rest, acc =>
    if isL n then
      match acc with
      | some l => .error (.multipleLeaders l n)
      | none => getLeaderLoop isL rest (some n)
    else getLeaderLoop isL rest acc

/-- Shallow embedding of `getLeaderNode` (cluster_failover.go:138-154). -/
def getLeaderNode (isL : Node → Bool) (nodes : List Node) : Except LeaderError Node :=
  getLeaderLoop isL nodes none

/-! ## Retry/Wait engine (robotest lib/wait; spec-modelled) -/

/-- Modelled from the spec: the three-way outcome of one retry attempt
(`nil` / `wait.Continue(reason)` / `wait.Abort(err)` of robotest lib/wait,
which is not under src/). -/
inductive RetryOutcome where
  | success
  | cont (reason : String)
  | abort (err : String)
deriving DecidableEq, Repr

/-- Result of a whole retry run. -/
inductive RetryResult where
  | ok
  | aborted (err : String)
  | exhausted (lastReason : String)
deriving DecidableEq, Repr

/-- Modelled from the spec: the bounded-retry executor `wait.Retryer.Do` of
robotest lib/wait, which is not under src/.  Per spec §4.2 it repeatedly
invokes the attempt function until: success (returns success), abort-now
(returns that error immediately, no further attempts), or the attempt
ceiling is reached (returns a retries-exhausted error carrying the last
keep-waiting reason).  The deadline/cancellation path and the inter-attempt
delay are not modelled; the claims settled here concern only attempt counts
and outcomes.  `f` maps the 0-based attempt index to that attempt's outcome,
`last` is the last keep-waiting reason, `i` the next attempt index and
`fuel` the remaining attempts; the result pairs the total number of attempts
performed with the final result. -/
def retryerRun (f : Nat → RetryOutcome) : String → Nat → Nat → Nat × RetryResult
  | last, i, 0 => (i, .exhausted last)
  | _, i, fuel + 1 =>
    match f i with
    | .success => (i + 1, .ok)
    | .abort e => (i + 1, .aborted e)
    | .cont r => retryerRun f r (i + 1) fuel

/-- Modelled from the spec: `wait.Retryer{Attempts: attempts}.Do` driving
the attempt function `f` (see `retryerRun`). -/
def retryerDo (attempts : Nat) (f : Nat → RetryOutcome) : Nat × RetryResult :=
  retryerRun f "" 0 attempts

/-! ## runOp operation poller (node_commands.go:558-607) -/

/-- `opStatusCompleted` constant of node_commands.go. -/
def opStatusCompleted : String := "completed"

/-- `opStatusFailed` constant of node_commands.go. -/
def opStatusFailed : String := "failed"

/-- Go `unicode.IsSpace` as used by `strings.TrimSpace`: ASCII whitespace,
NEL, NBSP and the Unicode space separators. -/
def goIsSpace (c : Char) : Bool :=
  c = '\t' || c = '\n' || c = '\x0b' || c = '\x0c' || c = '\r' || c = ' '
    || c = '\x85' || c = '\xa0' || c = '\u1680'
    || ('\u2000' ≤ c && c ≤ '\u200a')
    || c = '\u2028' || c = '\u2029' || c = '\u202f' || c = '\u205f'
    || c = '\u3000'

/-- Go `strings.TrimSpace`: removes leading and trailing whitespace. -/
def goTrimSpace (s : String) : String :=
  ⟨((s.data.dropWhile goIsSpace).reverse.dropWhile goIsSpace).reverse⟩

/-- The status-poll command run by `runOp` for operation id `code`
(node_commands.go:590). -/
def statusOpCmd (installDir code : String) : String :=
  "cd " ++ installDir ++ " && ./gravity status --operation-id=" ++ code ++ " -q"

/-- One iteration of the poll loop inside `runOp`
(node_commands.go:588-605).  `resp` is the transport result of running the
status command: `.error` when `sshutils.RunAndParse` fails (mapped to
`wait.Continue(cmd)`), otherwise the raw response string.  The trimmed
response is switched on: `"completed"` succeeds, `"failed"` aborts with the
response captured in the error (at that point `err` is nil, hence
`err=<nil>` in the message), anything else keeps waiting. -/
def runOpPoll (cmd : String) (resp : Except String String) : RetryOutcome :=
  match resp with
  | .error _ => .cont cmd
  | .ok response =>
    if goTrimSpace response = opStatusCompleted then .success
    else if goTrimSpace response = opStatusFailed then
      .abort (cmd ++ ": response=" ++ response ++ ", err=<nil>")
    else .cont ("non-final / unknown op status: " ++ response)

/-- The poll loop of `runOp`: `wait.Retryer{Attempts: 1000, Delay: 20s}`
driving `runOpPoll` over the per-attempt transport results `responses`. -/
def runOpPollLoop (cmd : String) (responses : Nat → Except String String)
    (attempts : Nat) : Nat × RetryResult :=
  retryerDo attempts fun i => runOpPoll cmd (responses i)

/-! ## Operation-id extraction (node_commands.go:558-559, 578-580) -/

/-- One character of the capture class `[a-z0-9\-]` of `reGravityExtended`. -/
def isOpChar (c : Char) : Bool :=
  ('a' ≤ c && c ≤ 'z') || ('0' ≤ c && c ≤ '9') || c = '-'

/-- The literal part of `reGravityExtended`, including the opening quote. -/
def litLaunched : List Char := "launched operation \"".data

/-- Matches a literal against the head of a character list, returning the
remainder on success. -/
def dropLit : List Char → List Char → Option (List Char)
  | [], s => some s
  | _, [] => none
  | c :: cs, d :: ds => if c = d then dropLit cs ds else none

/-- Attempts to match `reGravityExtended` at the head of `s`: the literal
`launched operation "`, then a nonempty greedy run of `[a-z0-9\-]` (returned
as the capture), then the closing quote; the trailing `.*` of the pattern
always matches and binds nothing. -/
def matchHere (s : List Char) : Option (List Char) :=
  match dropLit litLaunched s with
  | none => none
  | some rest =>
    let tok := rest.takeWhile isOpChar
    if tok = [] then none
    else
      match rest.dropWhile isOpChar with
      | '"' :: _ => some tok
      | _ => none

/-- Unanchored leftmost search of `reGravityExtended`: tries every start
position left to right (the semantics of `regexp.FindStringSubmatch`) and
returns the first capture group of the first match. -/
def findMatch : List Char → Option (List Char)
  | [] => none
  | c :: rest =>
    match matchHere (c :: rest) with
    | some tok => some tok
    | none => findMatch rest

/-- Whether the literal `launched operation "` occurs anywhere in the text. -/
def hasLaunchedLit : List Char → Bool
  | [] => false
  | c :: rest => (dropLit litLaunched (c :: rest)).isSome || hasLaunchedLit rest

/-- The operation-id extraction step of `runOp` (node_commands.go:578-580):
`if match := reGravityExtended.FindStringSubmatch(code); len(match) == 2`
then the capture replaces `code`, otherwise `code` is left unchanged
(the pattern has exactly one group, so a match always has length 2). -/
def extractOpID (code : String) : String :=
  match findMatch code.data with
  | some tok => ⟨tok⟩
  | none => code

/-! ## retryNewLeaderElected / retryClusterIsActive
(cluster_failover.go:90-136) -/

/-- One iteration of the retry function returned by `retryNewLeaderElected`
(cluster_failover.go:90-103): any leader-detection error, or a detected
leader equal to the old one, keeps waiting; otherwise success. -/
def retryNewLeaderElected (isL : Node → Bool) (cluster : List Node)
    (oldLeader : Node) : RetryOutcome :=
  match getLeaderNode isL cluster with
  | .error _ => .cont "new leader not yet elected"
  | .ok newLeader =>
    if newLeader = oldLeader then .cont "new leader not yet elected"
    else .success

/-- One iteration of the retry function returned by `retryClusterIsActive`
(cluster_failover.go:105-136).  `sNew`/`sOld` are the results of
`newLeader.Status(ctx)` and `oldLeader.Status(ctx)` (queried in that
order): each failure keeps waiting, then differing aggregate states keep
waiting, then a non-active state keeps waiting; otherwise success. -/
def retryClusterIsActive (sNew sOld : Except CmdError GravityStatus) : RetryOutcome :=
  match sNew with
  | .error e => .cont ("status is unavailable on new leader: " ++ e.msg)
  | .ok s0 =>
    match sOld with
    | .error e => .cont ("status is unavailable on old leader: " ++ e.msg)
    | .ok s1 =>
      if s0.cluster.status ≠ s1.cluster.status then .cont "cluster status is not in sync"
      else if s0.cluster.status ≠ StatusActive then .cont "cluster status is not active"
      else .success

/-! ## SSH channel, PowerOff, Offline, Status, CollectLogs
(node_commands.go:310-329, 413-433, 459-473) -/

/-- An established SSH client (`*ssh.Client`); the node's `ssh` field holds
`none` exactly when the Go field is nil. -/
structure SSHClient where
  id : Nat
deriving DecidableEq, Repr

/-- The mutable state of one `gravity` struct relevant to these claims:
its SSH client handle. -/
structure GravityVM where
  ssh : Option SSHClient
deriving DecidableEq, Repr

/-- `Offline` (node_commands.go:431-433): `g.ssh == nil`. -/
def Offline (g : GravityVM) : Bool := g.ssh.isNone

/-- Modelled from the spec: `sshutils.RunAndParse` lives in robotest
lib/ssh, which is not under src/.  Per spec §4.1 a command attempt against a
node already known to be deliberately powered off (nil SSH client) fails
with a distinguishable error rather than hanging; on a live client the
outcome is whatever the transport yields (`transport`). -/
def runAndParse {α : Type} (client : Option SSHClient)
    (transport : Except String α) : Except CmdError α :=
  match client with
  | none => .error (.offlineNode "node is offline")
  | some _ =>
    match transport with
    | .ok a => .ok a
    | .error e => .error (.transport e)

/-- Shallow embedding of `PowerOff` (node_commands.go:413-429): runs the
shutdown command through the channel; on success sets `g.ssh = nil` and
returns nil.  Returns the command result together with the node state
afterwards. -/
def PowerOff (g : GravityVM) (transport : Except String Unit) :
    Except CmdError Unit × GravityVM :=
  match runAndParse g.ssh transport with
  | .error e => (.error e, g)
  | .ok _ => (.ok (), { g with ssh := none })

/-- Shallow embedding of `Status` (node_commands.go:310-329): runs the
status command through the channel and returns the parsed document or the
wrapped error. -/
def StatusRun (g : GravityVM) (transport : Except String GravityStatus) :
    Except CmdError GravityStatus :=
  runAndParse g.ssh transport

/-- Shallow embedding of `CollectLogs` (node_commands.go:459-473): an
offline node (nil SSH client) is rejected up front with
`trace.AccessDenied("cannot collect logs from an offline node ...")`;
otherwise the report command is piped (`sshutils.PipeCommand`, modelled by
its transport outcome) and `localPath` is returned alongside the command
result. -/
def CollectLogs (g : GravityVM) (localPath : String)
    (transport : Except String Unit) : String × Except CmdError Unit :=
  match g.ssh with
  | none => ("", .error (.accessDenied "cannot collect logs from an offline node"))
  | some _ =>
    (localPath,
      match transport with
      | .ok _ => .ok ()
      | .error e => .error (.transport e))

/-! ## IsLeader (node_commands.go:623-639) -/

/-- The etcd leader key queried by `IsLeader`:
`fmt.Sprintf("/planet/cluster/%s/master", status.Cluster.Cluster)`. -/
def etcdLeaderKey (clusterName : String) : String :=
  "/planet/cluster/" ++ clusterName ++ "/master"

/-- The string `RunInPlanet` yields to its caller: the command output on
success, and `""` when the command failed (node_commands.go:610-621 returns
`"", trace.Wrap(err)`; `IsLeader` only logs that error and carries on with
the empty string). -/
def runInPlanetResult (res : Except CmdError String) : String :=
  match res with
  | .ok out => out
  | .error _ => ""

/-- Shallow embedding of `IsLeader` (node_commands.go:623-639): a failing
status query yields false; otherwise the etcd leader key derived from the
cluster name is fetched via `RunInPlanet` (environment `planetRun`), and
the node claims leadership exactly when the fetched value equals its own
private address.  Total: it returns a plain Bool and reports no error. -/
def IsLeader (privateAddr : String) (statusRes : Except CmdError GravityStatus)
    (planetRun : String → Except CmdError String) : Bool :=
  match statusRes with
  | .error _ => false
  | .ok status =>
    let leaderIP := runInPlanetResult (planetRun (etcdLeaderKey status.cluster.cluster))
    if leaderIP ≠ privateAddr then false else true

/-- A sample healthy status document for witnesses. -/
def sampleStatus : GravityStatus :=
  ⟨⟨⟨"telekube"⟩, "c1", StatusActive, ⟨"tok"⟩, [⟨"10.1.1.1"⟩, ⟨"10.1.1.2"⟩]⟩⟩

/-- A sample per-attempt transport trace for the runOp poll witness: the
first poll fails at transport level, the second returns `" failed\n"`. -/
def sampleResponses : Nat → Except String String
  | 0 => .error "ssh: handshake failed"
  | _ => .ok " failed\n"

/-! ## Theorems -/

theorem splitAtLeader_eq (leader : Node) :
    ∀ (cluster pre post : List Node),
      splitAtLeader cluster leader = some (pre, post) →
      cluster = pre ++ leader :: post ∧ leader ∉ pre := by
  intro cluster
  induction cluster with
  | nil => intro pre post h; simp [splitAtLeader] at h
  | cons n rest ih =>
    intro pre post h
    by_cases hn : n = leader
    · simp [splitAtLeader, hn] at h
      obtain ⟨hpre, hpost⟩ := h
      subst hpre; subst hpost; subst hn
      simp
    · simp [splitAtLeader, hn] at h
      rcases hrec : splitAtLeader rest leader with _ | ⟨pre', post'⟩
      · rw [hrec] at h; simp at h
      · rw [hrec] at h
        simp at h
        obtain ⟨hpre, hpost⟩ := h
        obtain ⟨hc, hnp⟩ := ih pre' post' hrec
        subst hpre; subst hpost
        constructor
        · simp [hc]
        · simp [hnp]
          intro he; exact hn he.symm

theorem splitAtLeader_isSome (leader : Node) :
    ∀ cluster : List Node, leader ∈ cluster →
      ∃ pre post, splitAtLeader cluster leader = some (pre, post) := by
  intro cluster
  induction cluster with
  | nil => intro h; simp at h
  | cons n rest ih =>
    intro h
    by_cases hn : n = leader
    · exact ⟨[], rest, by simp [splitAtLeader, hn]⟩
    · have hmem : leader ∈ rest := by
        rcases List.mem_cons.mp h with h1 | h1
        · exact absurd h1.symm hn
        · exact h1
      obtain ⟨pre, post, hsp⟩ := ih hmem
      exact ⟨n :: pre, post, by simp [splitAtLeader, hn, hsp]⟩

/-- C1 counterexample input: with nodes `[nA, nB, nC]` and leader `nA`, the
in-place `append` rewrites the caller's slice to `[nB, nC, nC]`. -/
theorem getPartitions_mutates_caller :
    (getPartitions [nA, nB, nC] nA).part0 = [nA] ∧
    (getPartitions [nA, nB, nC] nA).part1 = [nB, nC] ∧
    (getPartitions [nA, nB, nC] nA).callerView = [nB, nC, nC] ∧
    (getPartitions [nA, nB, nC] nA).callerView ≠ [nA, nB, nC] := by
  decide

/-- C1 (amended): for every duplicate-free cluster containing the leader,
`getPartitions` returns `partitions[0]` holding exactly the leader and
`partitions[1]` holding exactly the remaining nodes (so the two subsets are
disjoint and their union is the original set); however the split is not
purely logical: after the call the caller's slice reads the remainder
followed by a duplicate of the original last element (hence it is physically
mutated whenever the leader is not the last element). -/
theorem getPartitions_amended (cluster : List Node) (leader : Node)
    (hnd : cluster.Nodup) (hmem : leader ∈ cluster) :
    (getPartitions cluster leader).part0 = [leader] ∧
    (∀ x, x ∈ (getPartitions cluster leader).part1 ↔ x ∈ cluster ∧ x ≠ leader) ∧
    leader ∉ (getPartitions cluster leader).part1 ∧
    (∃ last, cluster.getLast? = some last ∧
      (getPartitions cluster leader).callerView =
        (getPartitions cluster leader).part1 ++ [last]) := by
  obtain ⟨pre, post, hsp⟩ := splitAtLeader_isSome leader cluster hmem
  obtain ⟨hc, hlpre⟩ := splitAtLeader_eq leader cluster pre post hsp
  have hlpost : leader ∉ post := by
    rw [hc] at hnd
    have h2 := (List.nodup_append.mp hnd).2.1
    exact (List.nodup_cons.mp h2).1
  have hpart : getPartitions cluster leader =
      ⟨[leader], pre ++ post, (pre ++ post) ++ cluster.getLast?.toList⟩ := by
    simp [getPartitions, hsp]
  refine ⟨by rw [hpart], ?_, ?_, ?_⟩
  · intro x
    rw [hpart]
    simp only [List.mem_append]
    constructor
    · rintro (hx | hx)
      · refine ⟨by rw [hc]; simp [hx], ?_⟩
        intro he; subst he; exact hlpre hx
      · refine ⟨by rw [hc]; simp [hx], ?_⟩
        intro he; subst he; exact hlpost hx
    · rintro ⟨hx, hne⟩
      rw [hc] at hx
      rcases List.mem_append.mp hx with hx | hx
      · exact Or.inl hx
      · rcases List.mem_cons.mp hx with hx | hx
        · exact absurd hx hne
        · exact Or.inr hx
  · rw [hpart]
    simp only [List.mem_append]
    rintro (hx | hx)
    · exact hlpre hx
    · exact hlpost hx
  · have hne : cluster ≠ [] := by rw [hc]; simp
    have hsome : cluster.getLast?.isSome := by
      rcases cluster with _ | ⟨x, xs⟩
      · exact absurd rfl hne
      · simp [List.getLast?_isSome]
    obtain ⟨last, hlast⟩ := Option.isSome_iff_exists.mp hsome
    exact ⟨last, hlast, by rw [hpart, hlast]; simp⟩

/-- Witness for `getPartitions_amended` at cluster `[nA, nB, nC]`,
leader `nB`. -/
theorem getPartitions_amended_witness :
    (getPartitions [nA, nB, nC] nB).part0 = [nB] ∧
    nB ∉ (getPartitions [nA, nB, nC] nB).part1 := by
  have h := getPartitions_amended [nA, nB, nC] nB (by decide) (by decide)
  exact ⟨h.1, h.2.2.1⟩

theorem partitionNetwork_eq (g : Node) :
    ∀ (cluster : List Node) (fw : Firewall),
      partitionNetwork g cluster fw =
        ⟨(peerRules g cluster).reverse ++ fw.input,
         (peerRules g cluster).reverse ++ fw.output⟩ := by
  intro cluster
  induction cluster with
  | nil => intro fw; simp [partitionNetwork, peerRules]
  | cons n rest ih =>
    intro fw
    by_cases hn : n = g
    · simp [partitionNetwork, peerRules, hn, ih]
    · simp [partitionNetwork, peerRules, hn, ih]

theorem unpartition_deletes (g : Node) :
    ∀ (cluster : List Node) (din dout oin oout : List FwRule),
      din.Perm (peerRules g cluster) → dout.Perm (peerRules g cluster) →
      unpartitionNetwork g cluster ⟨din ++ oin, dout ++ oout⟩ = .ok ⟨oin, oout⟩ := by
  intro cluster
  induction cluster with
  | nil =>
    intro din dout oin oout hin hout
    simp only [peerRules] at hin hout
    rw [hin.eq_nil, hout.eq_nil]
    simp [unpartitionNetwork]
  | cons n rest ih =>
    intro din dout oin oout hin hout
    by_cases hn : n = g
    · simp only [peerRules, if_pos hn] at hin hout
      simp only [unpartitionNetwork, if_pos hn]
      exact ih din dout oin oout hin hout
    · simp only [peerRules, if_neg hn] at hin hout
      have hin' := List.cons_perm_iff_perm_erase.mp hin.symm
      have hout' := List.cons_perm_iff_perm_erase.mp hout.symm
      have hmemIn : (⟨.src, n.privateAddr⟩ : FwRule) ∈ din ++ oin :=
        List.mem_append_left oin hin'.1
      have hmemOut : (⟨.src, n.privateAddr⟩ : FwRule) ∈ dout ++ oout :=
        List.mem_append_left oout hout'.1
      simp only [unpartitionNetwork, if_neg hn, deleteRule, if_pos hmemIn,
        if_pos hmemOut]
      rw [List.erase_append_left _ hin'.1, List.erase_append_left _ hout'.1]
      exact ih _ _ oin oout hin'.2.symm hout'.2.symm

/-- C2: partition-then-heal is a round trip on the target's rule store:
for every target, cluster list and initial firewall state, running
`PartitionNetwork` and then `UnpartitionNetwork` with the same target and
cluster succeeds and removes exactly the rules isolation installed,
restoring the initial state — in particular, starting from a state with no
block rules, no block rule between any pair of nodes remains. -/
theorem partition_unpartition_roundtrip (g : Node) (cluster : List Node)
    (fw : Firewall) :
    unpartitionNetwork g cluster (partitionNetwork g cluster fw) = .ok fw := by
  rw [partitionNetwork_eq]
  exact unpartition_deletes g cluster _ _ fw.input fw.output
    (List.reverse_perm _) (List.reverse_perm _)

/-- C4: evaluating `PartitionNetwork` at target `nA` (private address
10.1.1.1) and cluster `[nA, nB]` (peer address 10.1.1.2).  Exactly one rule
per chain is installed for the single peer and none for the target itself;
the INPUT rule drops inbound packets coming from the peer, but the OUTPUT
rule — installed as `sudo iptables -I OUTPUT -s 10.1.1.2 -j DROP` — matches
on the *source* address, so the target's outbound packet to the peer
(source 10.1.1.1, destination 10.1.1.2) is not dropped: outbound traffic
going to the peer is not blocked, contradicting the documented intent
("Dropping packets to/from"), which would require `-d 10.1.1.2`. -/
theorem partitionNetwork_outbound_not_blocked :
    (partitionNetwork nA [nA, nB] ⟨[], []⟩).input = [⟨.src, "10.1.1.2"⟩] ∧
    (partitionNetwork nA [nA, nB] ⟨[], []⟩).output = [⟨.src, "10.1.1.2"⟩] ∧
    dropsPacket (partitionNetwork nA [nA, nB] ⟨[], []⟩).input
      ⟨"10.1.1.2", "10.1.1.1"⟩ = true ∧
    dropsPacket (partitionNetwork nA [nA, nB] ⟨[], []⟩).output
      ⟨"10.1.1.1", "10.1.1.2"⟩ = false ∧
    dropsPacket [⟨MatchField.dst, "10.1.1.2"⟩] ⟨"10.1.1.1", "10.1.1.2"⟩ = true := by
  decide

theorem getLeaderLoop_some (isL : Node → Bool) (l : Node) :
    ∀ nodes : List Node,
      (nodes.filter isL = [] → getLeaderLoop isL nodes (some l) = .ok l) ∧
      (∀ n rest, nodes.filter isL = n :: rest →
        getLeaderLoop isL nodes (some l) = .error (.multipleLeaders l n)) := by
  intro nodes
  induction nodes with
  | nil => exact ⟨fun _ => rfl, fun n rest h => by simp at h⟩
  | cons m tail ih =>
    by_cases hm : isL m
    · refine ⟨fun h => ?_, fun n rest h => ?_⟩
      · rw [List.filter_cons_of_pos hm] at h; exact absurd h (by simp)
      · rw [List.filter_cons_of_pos hm] at h
        obtain ⟨hn, _⟩ := List.cons.injEq .. ▸ h
        simp only [getLeaderLoop, hm, if_pos]
        rw [← hn]
    · refine ⟨fun h => ?_, fun n rest h => ?_⟩
      · rw [List.filter_cons_of_neg hm] at h
        simp only [getLeaderLoop, hm]
        simpa using ih.1 h
      · rw [List.filter_cons_of_neg hm] at h
        simp only [getLeaderLoop, hm]
        simpa using ih.2 n rest h

theorem getLeaderLoop_none (isL : Node → Bool) :
    ∀ nodes : List Node,
      (nodes.filter isL = [] → getLeaderLoop isL nodes none = .error .notFound) ∧
      (∀ n, nodes.filter isL = [n] → getLeaderLoop isL nodes none = .ok n) ∧
      (∀ n₁ n₂ rest, nodes.filter isL = n₁ :: n₂ :: rest →
        getLeaderLoop isL nodes none = .error (.multipleLeaders n₁ n₂)) := by
  intro nodes
  induction nodes with
  | nil =>
    refine ⟨fun _ => rfl, fun n h => by simp at h, fun n₁ n₂ rest h => by simp at h⟩
  | cons m tail ih =>
    by_cases hm : isL m
    · refine ⟨fun h => ?_, fun n h => ?_, fun n₁ n₂ rest h => ?_⟩
      · rw [List.filter_cons_of_pos hm] at h; exact absurd h (by simp)
      · rw [List.filter_cons_of_pos hm] at h
        obtain ⟨hn, htail⟩ := List.cons.injEq .. ▸ h
        simp only [getLeaderLoop, hm, if_pos]
        rw [← hn]
        exact (getLeaderLoop_some isL m tail).1 htail
      · rw [List.filter_cons_of_pos hm] at h
        obtain ⟨hn, htail⟩ := List.cons.injEq .. ▸ h
        simp only [getLeaderLoop, hm, if_pos]
        rw [← hn]
        exact (getLeaderLoop_some isL m tail).2 n₂ rest htail
    · have hf : (m :: tail).filter isL = tail.filter isL := List.filter_cons_of_neg hm
      refine ⟨fun h => ?_, fun n h => ?_, fun n₁ n₂ rest h => ?_⟩
      · rw [hf] at h; simp only [getLeaderLoop, hm]; simpa using ih.1 h
      · rw [hf] at h; simp only [getLeaderLoop, hm]; simpa using ih.2.1 n h
      · rw [hf] at h; simp only [getLeaderLoop, hm]; simpa using ih.2.2 n₁ n₂ rest h

/-- C3: `getLeaderNode` has exactly three outcomes, determined by the list
of nodes claiming leadership (`nodes.filter isL`, in node order): with
exactly one claimant it returns that node; with zero claimants it fails
with the not-found error; with two or more claimants it fails with the
distinct bad-state (multiple leaders) error naming the first two
claimants — and the two error kinds are never equal. -/
theorem getLeaderNode_spec (isL : Node → Bool) (nodes : List Node) :
    (∀ n, nodes.filter isL = [n] → getLeaderNode isL nodes = .ok n) ∧
    (nodes.filter isL = [] → getLeaderNode isL nodes = .error .notFound) ∧
    (∀ n₁ n₂ rest, nodes.filter isL = n₁ :: n₂ :: rest →
      getLeaderNode isL nodes = .error (.multipleLeaders n₁ n₂)) ∧
    (∀ a b, (LeaderError.notFound : LeaderError) ≠ .multipleLeaders a b) := by
  refine ⟨fun n h => ?_, fun h => ?_, fun n₁ n₂ rest h => ?_, fun a b => by simp⟩
  · exact (getLeaderLoop_none isL nodes).2.1 n h
  · exact (getLeaderLoop_none isL nodes).1 h
  · exact (getLeaderLoop_none isL nodes).2.2 n₁ n₂ rest h

/-- Witness for `getLeaderNode_spec`: on `[nA, nB, nC]` with `nB` the only
claimant, detection returns `nB`; with no claimant it returns the not-found
error. -/
theorem getLeaderNode_spec_witness :
    getLeaderNode (fun n => decide (n = nB)) [nA, nB, nC] = .ok nB ∧
    getLeaderNode (fun _ => false) [nA, nB, nC] = .error .notFound := by
  refine ⟨(getLeaderNode_spec (fun n => decide (n = nB)) [nA, nB, nC]).1 nB (by decide), ?_⟩
  exact (getLeaderNode_spec (fun _ => false) [nA, nB, nC]).2.1 (by decide)

/-- C7: an iteration of the convergence check succeeds exactly when the
status query succeeds on both the new and the old leader, their aggregate
states are equal, and that state is `"active"`; it never aborts, so in
every other case — status unavailable on either node, differing states, or
an equal but non-active state — it keeps waiting. -/
theorem retryClusterIsActive_spec (sNew sOld : Except CmdError GravityStatus) :
    (retryClusterIsActive sNew sOld = .success ↔
      ∃ s0 s1, sNew = .ok s0 ∧ sOld = .ok s1 ∧
        s0.cluster.status = s1.cluster.status ∧ s0.cluster.status = StatusActive) ∧
    (∀ e, retryClusterIsActive sNew sOld ≠ .abort e) ∧
    (retryClusterIsActive sNew sOld ≠ .success →
      ∃ r, retryClusterIsActive sNew sOld = .cont r) := by
  refine ⟨?_, ?_, ?_⟩
  · cases sNew with
    | error e => simp [retryClusterIsActive]
    | ok s0 =>
      cases sOld with
      | error e => simp [retryClusterIsActive]
      | ok s1 =>
        by_cases hsync : s0.cluster.status = s1.cluster.status
        · by_cases hact : s0.cluster.status = StatusActive
          · simp [retryClusterIsActive, hsync, hact]
          · simp [retryClusterIsActive, hsync, hact]
        · simp [retryClusterIsActive, hsync]
  · intro e
    cases sNew with
    | error e0 => simp [retryClusterIsActive]
    | ok s0 =>
      cases sOld with
      | error e0 => simp [retryClusterIsActive]
      | ok s1 =>
        simp only [retryClusterIsActive]
        split
        · simp
        · split
          · simp
          · simp
  · intro hns
    cases h : retryClusterIsActive sNew sOld with
    | success => exact absurd h hns
    | cont r => exact ⟨r, rfl⟩
    | abort e =>
      exfalso
      cases sNew with
      | error e0 => simp [retryClusterIsActive] at h
      | ok s0 =>
        cases sOld with
        | error e0 => simp [retryClusterIsActive] at h
        | ok s1 =>
          simp only [retryClusterIsActive] at h
          split at h
          · simp at h
          · split at h
            · simp at h
            · simp at h

/-- Witness for `retryClusterIsActive_spec`: two identical active status
documents yield success; an unavailable status on the old leader yields a
keep-waiting outcome, not an abort. -/
theorem retryClusterIsActive_spec_witness :
    retryClusterIsActive (.ok sampleStatus) (.ok sampleStatus) = .success ∧
    retryClusterIsActive (.ok sampleStatus) (.error (.transport "x")) ≠
      .abort "x" := by
  constructor
  · exact (retryClusterIsActive_spec (.ok sampleStatus) (.ok sampleStatus)).1.mpr
      ⟨sampleStatus, sampleStatus, rfl, rfl, rfl, rfl⟩
  · exact (retryClusterIsActive_spec (.ok sampleStatus)
      (.error (.transport "x"))).2.1 "x"

/-- C8: an iteration of the await-new-leader retry function treats every
leader-detection error on the majority partition — including the
multiple-leaders bad-state error — as keep-waiting, never aborts, and
succeeds exactly when a leader is found that differs from the old leader. -/
theorem retryNewLeaderElected_spec (isL : Node → Bool) (cluster : List Node)
    (oldLeader : Node) :
    (∀ e, getLeaderNode isL cluster = .error e →
      retryNewLeaderElected isL cluster oldLeader = .cont "new leader not yet elected") ∧
    (retryNewLeaderElected isL cluster oldLeader = .success ↔
      ∃ n, getLeaderNode isL cluster = .ok n ∧ n ≠ oldLeader) ∧
    (∀ e, retryNewLeaderElected isL cluster oldLeader ≠ .abort e) := by
  refine ⟨fun e he => ?_, ?_, fun e => ?_⟩
  · simp [retryNewLeaderElected, he]
  · cases hg : getLeaderNode isL cluster with
    | error e0 => simp [retryNewLeaderElected, hg]
    | ok n =>
      by_cases hn : n = oldLeader
      · simp [retryNewLeaderElected, hg, hn]
      · simp [retryNewLeaderElected, hg, hn]
  · cases hg : getLeaderNode isL cluster with
    | error e0 => simp [retryNewLeaderElected, hg]
    | ok n =>
      by_cases hn : n = oldLeader
      · simp [retryNewLeaderElected, hg, hn]
      · simp [retryNewLeaderElected, hg, hn]

/-- Witness for `retryNewLeaderElected_spec`: with both of `[nA, nB]`
claiming leadership, detection reports the multiple-leaders bad-state error
and the iteration keeps waiting rather than aborting; with only `nB`
claiming, the iteration (old leader `nA`) succeeds. -/
theorem retryNewLeaderElected_spec_witness :
    retryNewLeaderElected (fun _ => true) [nA, nB] nA =
      .cont "new leader not yet elected" ∧
    retryNewLeaderElected (fun n => decide (n = nB)) [nA, nB] nA = .success := by
  constructor
  · exact (retryNewLeaderElected_spec (fun _ => true) [nA, nB] nA).1
      (.multipleLeaders nA nB) rfl
  · exact (retryNewLeaderElected_spec (fun n => decide (n = nB)) [nA, nB] nA).2.1.mpr
      ⟨nB, rfl, by decide⟩

theorem retryerRun_abort (f : Nat → RetryOutcome) (e : String) :
    ∀ (k : Nat) (fuel i : Nat) (last : String), k < fuel →
      (∀ j, j < k → ∃ r, f (i + j) = .cont r) →
      f (i + k) = .abort e →
      retryerRun f last i fuel = (i + k + 1, .aborted e) := by
  intro k
  induction k with
  | zero =>
    intro fuel i last hk hb hab
    cases fuel with
    | zero => omega
    | succ m =>
      simp only [Nat.add_zero] at hab
      simp [retryerRun, hab]
  | succ k ih =>
    intro fuel i last hk hb hab
    cases fuel with
    | zero => omega
    | succ m =>
      obtain ⟨r, hr⟩ := hb 0 (Nat.succ_pos k)
      simp only [Nat.add_zero] at hr
      simp only [retryerRun, hr]
      have hb' : ∀ j, j < k → ∃ r, f (i + 1 + j) = .cont r := by
        intro j hj
        have := hb (j + 1) (by omega)
        simpa [Nat.add_comm, Nat.add_assoc, Nat.add_left_comm] using this
      have hab' : f (i + 1 + k) = .abort e := by
        have : i + 1 + k = i + (k + 1) := by omega
        rw [this]; exact hab
      have := ih m (i + 1) r (by omega) hb' hab'
      rw [this]
      congr 1
      omega

/-- C5: the `runOp` poller maps each poll result as the claim states — a
transport error while polling keeps waiting (reason: the command), a
trimmed response `"completed"` succeeds, a trimmed response `"failed"`
aborts with the response captured in the error, any other status keeps
waiting, and an abort arises only from a trimmed `"failed"` — and when the
first `k` polls keep waiting and poll `k` (within the attempt budget)
returns a response trimming to `"failed"`, the retry loop performs exactly
`k + 1` attempts and returns that abort error, never continuing past it. -/
theorem runOp_poll_spec (cmd : String) (responses : Nat → Except String String)
    (attempts k : Nat) (s : String) :
    (∀ e, runOpPoll cmd (.error e) = .cont cmd) ∧
    (goTrimSpace s = opStatusCompleted → runOpPoll cmd (.ok s) = .success) ∧
    (goTrimSpace s = opStatusFailed →
      runOpPoll cmd (.ok s) = .abort (cmd ++ ": response=" ++ s ++ ", err=<nil>")) ∧
    (goTrimSpace s ≠ opStatusCompleted → goTrimSpace s ≠ opStatusFailed →
      runOpPoll cmd (.ok s) = .cont ("non-final / unknown op status: " ++ s)) ∧
    (∀ r e, runOpPoll cmd r = .abort e →
      ∃ t, r = .ok t ∧ goTrimSpace t = opStatusFailed) ∧
    (k < attempts →
      (∀ j, j < k → ∃ reason, runOpPoll cmd (responses j) = .cont reason) →
      responses k = .ok s → goTrimSpace s = opStatusFailed →
      runOpPollLoop cmd responses attempts =
        (k + 1, .aborted (cmd ++ ": response=" ++ s ++ ", err=<nil>"))) := by
  have hne : opStatusFailed ≠ opStatusCompleted := by decide
  refine ⟨fun e => rfl, fun h => ?_, fun h => ?_, fun h1 h2 => ?_, fun r e h => ?_, ?_⟩
  · simp [runOpPoll, h]
  · rw [runOpPoll, if_neg (by rw [h]; exact hne), if_pos h]
  · simp [runOpPoll, h1, h2]
  · cases r with
    | error e0 => simp [runOpPoll] at h
    | ok t =>
      refine ⟨t, rfl, ?_⟩
      simp only [runOpPoll] at h
      split at h
      · simp at h
      · split at h
        · assumption
        · simp at h
  · intro hk hb hkr hs
    have habort : runOpPoll cmd (responses k) =
        .abort (cmd ++ ": response=" ++ s ++ ", err=<nil>") := by
      rw [hkr, runOpPoll, if_neg (by rw [hs]; exact hne), if_pos hs]
    have := retryerRun_abort (fun i => runOpPoll cmd (responses i)) _ k attempts 0 "" hk
      (by intro j hj; simpa using hb j hj) (by simpa using habort)
    simpa [runOpPollLoop, retryerDo] using this

/-- Witness for `runOp_poll_spec`: with a transport failure on the first
poll and a `" failed\n"` response on the second, the loop (budget 1000, as
in `runOp`) aborts after exactly two attempts. -/
theorem runOp_poll_spec_witness :
    runOpPollLoop "c" sampleResponses 1000 =
      (2, .aborted ("c: response= failed\n, err=<nil>")) := by
  have h := (runOp_poll_spec "c" sampleResponses 1000 1 " failed\n").2.2.2.2.2
  have := h (by omega)
    (by
      intro j hj
      have hj0 : j = 0 := by omega
      subst hj0
      exact ⟨"c", rfl⟩)
    rfl (by decide)
  simpa using this

theorem dropLit_self : ∀ (l s : List Char), dropLit l (l ++ s) = some s := by
  intro l
  induction l with
  | nil => intro s; simp [dropLit]
  | cons c cs ih => intro s; simp [dropLit, ih]

theorem tokenSplit : ∀ (t : List Char) (d : Char) (rest : List Char),
    (∀ c ∈ t, isOpChar c = true) → isOpChar d = false →
    (t ++ d :: rest).takeWhile isOpChar = t ∧
    (t ++ d :: rest).dropWhile isOpChar = d :: rest := by
  intro t
  induction t with
  | nil => intro d rest _ hd; simp [List.takeWhile, List.dropWhile, hd]
  | cons c cs ih =>
    intro d rest hall hd
    have hc : isOpChar c = true := hall c (by simp)
    have hrec := ih d rest (fun x hx => hall x (by simp [hx])) hd
    simp [List.takeWhile_cons, List.dropWhile_cons, hc, hrec.1, hrec.2]

theorem matchHere_launch (t post : List Char) (hne : t ≠ [])
    (hall : ∀ c ∈ t, isOpChar c = true) :
    matchHere (litLaunched ++ (t ++ '"' :: post)) = some t := by
  have hq : isOpChar '"' = false := by decide
  have hsplit := tokenSplit t '"' post hall hq
  simp only [matchHere, dropLit_self, hsplit.1, hsplit.2]
  simp [hne]

theorem findMatch_of_matchHere (l : List Char) (t : List Char) (hne : l ≠ [])
    (hm : matchHere l = some t) : findMatch l = some t := by
  cases l with
  | nil => exact absurd rfl hne
  | cons c rest => simp [findMatch, hm]

theorem findMatch_eq_none : ∀ l : List Char, hasLaunchedLit l = false →
    findMatch l = none := by
  intro l
  induction l with
  | nil => intro _; rfl
  | cons c rest ih =>
    intro h
    simp only [hasLaunchedLit, Bool.or_eq_false_iff] at h
    have h1 : dropLit litLaunched (c :: rest) = none := by
      cases hd : dropLit litLaunched (c :: rest) with
      | none => rfl
      | some r => rw [hd] at h; simp at h
    simp only [findMatch, matchHere, h1]
    exact ih h.2

/-- C6 counterexample input: the sentence contains exactly one double-quoted
token but lacks the `launched operation ` lead-in that `reGravityExtended`
requires, so extraction returns the whole sentence, not the token. -/
theorem extractOpID_needs_leadin :
    extractOpID "started operation \"abc-def-456\" for upgrade" =
      "started operation \"abc-def-456\" for upgrade" ∧
    extractOpID "started operation \"abc-def-456\" for upgrade" ≠ "abc-def-456" := by
  constructor
  · decide
  · decide

/-- C6 (amended): extraction returns the quoted token exactly for text that
embeds the literal `launched operation "` followed by a nonempty token of
lowercase letters, digits and hyphens and the closing quote (the embedding
sentence is otherwise unconstrained); any input without that lead-in —
a bare operation id in particular, but also a free-text sentence whose
double-quoted token is not preceded by `launched operation ` — is returned
unchanged. -/
theorem extractOpID_amended (t post : List Char) (bare : String) :
    (t ≠ [] → (∀ c ∈ t, isOpChar c = true) →
      extractOpID ⟨litLaunched ++ (t ++ '"' :: post)⟩ = ⟨t⟩) ∧
    (hasLaunchedLit bare.data = false → extractOpID bare = bare) := by
  constructor
  · intro hne hall
    have hm := matchHere_launch t post hne hall
    have hf := findMatch_of_matchHere (litLaunched ++ (t ++ '"' :: post)) t
      (by simp [litLaunched]) hm
    simp only [extractOpID]
    rw [hf]
  · intro h
    simp only [extractOpID, findMatch_eq_none bare.data h]

/-- Witness for `extractOpID_amended`: the two behaviours of the spec's
examples — a sentence with the lead-in yields the quoted token, a bare
token is returned unchanged. -/
theorem extractOpID_amended_witness :
    extractOpID "launched operation \"abc-def-456\" for upgrade" = "abc-def-456" ∧
    extractOpID "op-123" = "op-123" := by
  constructor
  · have h := (extractOpID_amended "abc-def-456".data " for upgrade".data "op-123").1
      (by decide) (by decide)
    have he : ("launched operation \"abc-def-456\" for upgrade" : String) =
        ⟨litLaunched ++ ("abc-def-456".data ++ '"' :: " for upgrade".data)⟩ := by
      decide
    rw [he, h]
  · exact (extractOpID_amended [] [] "op-123").2 (by decide)

/-- C9: after a successful `PowerOff` the node is marked offline
(`Offline` returns true) and every subsequent command attempt against it —
any command through the channel, `Status` in particular, and `CollectLogs`
with its own up-front check — fails with a distinguishable error
(offline-node resp. access-denied, never a success and never a hang, the
channel being modelled as always answering). -/
theorem powerOff_offline_spec (g : GravityVM) (t : Except String Unit)
    (h : (PowerOff g t).1 = .ok ()) :
    Offline (PowerOff g t).2 = true ∧
    (∀ (α : Type) (tr : Except String α),
      runAndParse (PowerOff g t).2.ssh tr = .error (.offlineNode "node is offline")) ∧
    (∀ st, StatusRun (PowerOff g t).2 st = .error (.offlineNode "node is offline")) ∧
    (∀ lp tr, (CollectLogs (PowerOff g t).2 lp tr).2 =
      .error (.accessDenied "cannot collect logs from an offline node")) ∧
    (∀ st s, StatusRun (PowerOff g t).2 st ≠ .ok s) := by
  have hnone : (PowerOff g t).2.ssh = none := by
    cases hc : g.ssh with
    | none => simp [PowerOff, runAndParse, hc] at h
    | some c =>
      cases ht : t with
      | error e => simp [PowerOff, runAndParse, hc, ht] at h
      | ok u => simp [PowerOff, runAndParse, hc, ht]
  refine ⟨?_, fun α tr => ?_, fun st => ?_, fun lp tr => ?_, fun st s => ?_⟩
  · simp [Offline, hnone]
  · simp [runAndParse, hnone]
  · simp [StatusRun, runAndParse, hnone]
  · simp [CollectLogs, hnone]
  · simp [StatusRun, runAndParse, hnone]

/-- Witness for `powerOff_offline_spec`: a live node powered off through a
successful shutdown command is offline, and both a status query and a log
collection against it fail with the distinguishable errors. -/
theorem powerOff_offline_spec_witness :
    Offline (PowerOff ⟨some ⟨0⟩⟩ (.ok ())).2 = true ∧
    StatusRun (PowerOff ⟨some ⟨0⟩⟩ (.ok ())).2 (.ok sampleStatus) =
      .error (.offlineNode "node is offline") ∧
    (CollectLogs (PowerOff ⟨some ⟨0⟩⟩ (.ok ())).2 "node-logs" (.ok ())).2 =
      .error (.accessDenied "cannot collect logs from an offline node") := by
  have h := powerOff_offline_spec ⟨some ⟨0⟩⟩ (.ok ()) rfl
  exact ⟨h.1, h.2.2.1 (.ok sampleStatus), h.2.2.2.1 "node-logs" (.ok ())⟩

theorem getLeaderLoop_ok_isLeader (isL : Node → Bool) :
    ∀ (nodes : List Node) (acc : Option Node) (n : Node),
      (∀ m, acc = some m → isL m = true) →
      getLeaderLoop isL nodes acc = .ok n → isL n = true := by
  intro nodes
  induction nodes with
  | nil =>
    intro acc n hacc h
    cases acc with
    | none => simp [getLeaderLoop] at h
    | some l =>
      simp only [getLeaderLoop] at h
      obtain rfl : l = n := by simpa using h
      exact hacc _ rfl
  | cons m tail ih =>
    intro acc n hacc h
    by_cases hm : isL m
    · cases acc with
      | some l => simp [getLeaderLoop, hm] at h
      | none =>
        simp only [getLeaderLoop, hm, if_pos] at h
        exact ih (some m) n (fun x hx => Option.some_inj.mp hx ▸ hm) h
    · simp only [getLeaderLoop, hm] at h
      exact ih acc n hacc (by simpa using h)

/-- C10: `IsLeader` is total (it returns a plain Bool, reporting no error);
it returns false whenever the node's status query fails, and — reading the
coordination-layer leader value as the string `RunInPlanet` hands back,
which is the empty string when the lookup fails — it returns true exactly
when the status query succeeds and that leader value equals the node's own
private address.  Consequently a node whose status query fails is never a
leadership claimant: `getLeaderNode` cannot return it. -/
theorem isLeader_spec (addr : String) (statusRes : Except CmdError GravityStatus)
    (planetRun : String → Except CmdError String) :
    (IsLeader addr statusRes planetRun = true ∨
      IsLeader addr statusRes planetRun = false) ∧
    (∀ e, statusRes = .error e → IsLeader addr statusRes planetRun = false) ∧
    (IsLeader addr statusRes planetRun = true ↔
      ∃ s, statusRes = .ok s ∧
        runInPlanetResult (planetRun (etcdLeaderKey s.cluster.cluster)) = addr) ∧
    (∀ (nodes : List Node) (statusOf : Node → Except CmdError GravityStatus)
       (planetOf : Node → String → Except CmdError String) (g : Node) e,
       statusOf g = .error e →
       getLeaderNode (fun n => IsLeader n.privateAddr (statusOf n) (planetOf n))
         nodes ≠ .ok g) := by
  refine ⟨?_, fun e he => ?_, ?_, ?_⟩
  · cases IsLeader addr statusRes planetRun with
    | true => exact Or.inl rfl
    | false => exact Or.inr rfl
  · simp [IsLeader, he]
  · cases hs : statusRes with
    | error e => simp [IsLeader, hs]
    | ok s =>
      by_cases hip :
          runInPlanetResult (planetRun (etcdLeaderKey s.cluster.cluster)) = addr
      · simp [IsLeader, hs, hip]
      · simp [IsLeader, hs, hip]
  · intro nodes statusOf planetOf g e hg hok
    have hl := getLeaderLoop_ok_isLeader
      (fun n => IsLeader n.privateAddr (statusOf n) (planetOf n)) nodes none g
      (by intro m hm; simp at hm) hok
    simp [hg, IsLeader] at hl

/-- Witness for `isLeader_spec`: a node whose status query fails does not
claim leadership (and can never be returned by `getLeaderNode`), while a
node whose etcd leader value equals its private address does claim it. -/
theorem isLeader_spec_witness :
    IsLeader "10.1.1.1" (.error (.transport "unreachable")) (fun _ => .ok "10.1.1.1")
      = false ∧
    IsLeader "10.1.1.1" (.ok sampleStatus) (fun _ => .ok "10.1.1.1") = true := by
  constructor
  · exact (isLeader_spec "10.1.1.1" (.error (.transport "unreachable"))
      (fun _ => .ok "10.1.1.1")).2.1 (.transport "unreachable") rfl
  · exact (isLeader_spec "10.1.1.1" (.ok sampleStatus)
      (fun _ => .ok "10.1.1.1")).2.2.1.mpr ⟨sampleStatus, rfl, rfl⟩

end Robotest
